import Mathlib

/-!
Shallow embedding of the file-service repository's core logic:
access-control decisions (`FileService.canAccessFile` / `canDownloadFile`),
the compression eligibility predicate (`CompressionService.shouldCompressFile`),
the image-transcode result selection, the background-compression dispatch and
status bookkeeping in `FileService.createFile`, the archive builder
(`FileService.compressFiles`), and the expired-file sweeper
(`FileService.cleanupExpiredFiles`).

Machine conventions: JS strings are `String`; optional TS parameters
(`userRole?: string`) are `Option String`; byte counts are `Nat`; the
floating-point ratio arithmetic of the result selection is modelled exactly
over `ℚ` (all quantities involved are exact integer byte counts divided by an
integer original size, and the 0.95 literal is the rational 19/20);
fallible operations return `Except`/`Option`.
-/

namespace FileServiceRepo

/-! ### Environment configuration (src: configs/env, EnvSchema defaults) -/

/-- Environment configuration relevant to compression, from the `EnvSchema`
zod object.  Fields keep the source names. -/
structure Env where
  ENABLE_FILE_COMPRESSION : Bool
  COMPRESSION_QUALITY : Nat
  COMPRESSION_THRESHOLD_SIZE : Nat
  COMPRESS_IMAGE_TYPES : Bool
  COMPRESS_PDF_TYPES : Bool
  COMPRESS_TEXT_TYPES : Bool
  deriving DecidableEq

/-- The defaults declared in `EnvSchema` (quality 85, threshold 300000 bytes,
image and text compression on, PDF compression off). -/
def envDefault : Env :=
  { ENABLE_FILE_COMPRESSION := true
    COMPRESSION_QUALITY := 85
    COMPRESSION_THRESHOLD_SIZE := 300000
    COMPRESS_IMAGE_TYPES := true
    COMPRESS_PDF_TYPES := false
    COMPRESS_TEXT_TYPES := true }

/-! ### String helpers mirroring the JS string methods used by the source. -/

/-- JS `s.startsWith(pre)` on the underlying character sequences. -/
def strStartsWith (s pre : String) : Bool :=
  pre.toList.isPrefixOf s.toList

/-- JS `String.prototype.includes` on char lists: `pat` occurs as a
contiguous substring. -/
def charListHasSub (pat : List Char) : List Char → Bool
  | [] => pat.isEmpty
  | c :: t => pat.isPrefixOf (c :: t) || charListHasSub pat t

/-- JS `s.includes(pat)`. -/
def strIncludes (s pat : String) : Bool :=
  charListHasSub pat.toList s.toList

/-! ### CompressionService: eligibility (src: compression.service,
`shouldCompressFile`, `isImageType`, `isPdfType`, `isTextType`). -/

/-- `isImageType(mimetype)`: `mimetype.startsWith('image/')`. -/
def isImageType (mimetype : String) : Bool :=
  strStartsWith mimetype "image/"

/-- `isPdfType(mimetype)`: `mimetype === 'application/pdf'`. -/
def isPdfType (mimetype : String) : Bool :=
  mimetype == "application/pdf"

/-- `isTextType(mimetype)`: starts with `text/` or includes one of the
text-ish substrings. -/
def isTextType (mimetype : String) : Bool :=
  strStartsWith mimetype "text/" ||
  strIncludes mimetype "json" ||
  strIncludes mimetype "xml" ||
  strIncludes mimetype "csv" ||
  strIncludes mimetype "javascript" ||
  strIncludes mimetype "css" ||
  strIncludes mimetype "html"

/-- `CompressionOptions`: every field optional in TS, so `Option` here. -/
structure CompressionOptions where
  quality : Option Nat := none
  thresholdSize : Option Nat := none
  compressImages : Option Bool := none
  compressPdfs : Option Bool := none
  compressText : Option Bool := none
  maxWidth : Option Nat := none
  maxHeight : Option Nat := none
  deriving DecidableEq

/-- `CompressionService.shouldCompressFile(mimetype, size, options)`.
Destructuring defaults come from the env, except `compressPdfs` whose
default is the literal `false` in the source. -/
def shouldCompressFile (env : Env) (mimetype : String) (size : Nat)
    (options : CompressionOptions) : Bool :=
  let thresholdSize := options.thresholdSize.getD env.COMPRESSION_THRESHOLD_SIZE
  let compressImages := options.compressImages.getD env.COMPRESS_IMAGE_TYPES
  let compressPdfs := options.compressPdfs.getD false
  let compressText := options.compressText.getD env.COMPRESS_TEXT_TYPES
  if compressImages && isImageType mimetype then true
  else if size < thresholdSize then false
  else if compressPdfs && isPdfType mimetype then false
  else if compressText && isTextType mimetype then true
  else false

/-! ### FileService: access control (src: files.service,
`FileService.canAccessFile` / `FileService.canDownloadFile`). -/

/-- A persisted file record (the fields of the mongoose `fileSchema` the
core logic reads).  `expiresAt` is an optional timestamp (ms since epoch). -/
structure FileRec where
  id : String
  originalName : String
  filename : String
  mimetype : String
  size : Nat
  uploadedBy : String
  isPublic : Bool
  expiresAt : Option Int := none
  path : String := ""
  deriving DecidableEq

/-- `FileService.canAccessFile(file, userId, userRole)`: public files are
accessible to everyone; private files only to uploader or admins. -/
def canAccessFile (file : FileRec) (userId : String) (userRole : Option String) : Bool :=
  if file.isPublic then true
  else file.uploadedBy == userId || userRole == some "admin"

/-- `FileService.canDownloadFile(file, userId, userRole)`: public files are
downloadable by everyone; private files only by uploader or admins. -/
def canDownloadFile (file : FileRec) (userId : String) (userRole : Option String) : Bool :=
  if file.isPublic then true
  else file.uploadedBy == userId || userRole == some "admin"

/-! ### CompressionService: image-transcode result selection (src:
compression.service, tail of `compressImage`). -/

/-- `compressionType` values of `CompressionResult`. -/
inductive CompressionType
  | png
  | webp
  | both
  | none
  deriving DecidableEq

/-- The numeric outcome of the result-selection block at the end of
`compressImage`: chosen primary format, reported `compressedSize`,
`compressionRatio` and `savingsPercentage`. -/
structure SelectOutcome where
  compressionType : CompressionType
  compressedSize : Nat
  compressionRatio : ℚ
  savingsPercentage : ℚ
  deriving DecidableEq

/-- Result selection in `compressImage`: prefer WebP when its ratio beats
PNG's and is below 0.95; else PNG when its ratio is below 0.95; else keep
both and report the smaller one.  `savingsPercentage` is computed afterwards
from the chosen `compressedSize`. -/
def selectCompressionResult (compressedPngSize webpSize originalSize : Nat) :
    SelectOutcome :=
  let pngRatio : ℚ := (compressedPngSize : ℚ) / (originalSize : ℚ)
  let webpRatio : ℚ := (webpSize : ℚ) / (originalSize : ℚ)
  let sel : CompressionType × Nat × ℚ :=
    if webpRatio < pngRatio ∧ webpRatio < 95 / 100 then
      (CompressionType.webp, webpSize, webpRatio)
    else if pngRatio < 95 / 100 then
      (CompressionType.png, compressedPngSize, pngRatio)
    else
      ((if webpRatio < pngRatio then CompressionType.webp else CompressionType.png),
        min compressedPngSize webpSize,
        ((min compressedPngSize webpSize : Nat) : ℚ) / (originalSize : ℚ))
  { compressionType := sel.1
    compressedSize := sel.2.1
    compressionRatio := sel.2.2
    savingsPercentage := ((originalSize : ℚ) - (sel.2.1 : ℚ)) / (originalSize : ℚ) * 100 }

/-! ### CompressionService: post-transcode filesystem cleanup (src:
compression.service, middle of `compressImage`).

The success path of `compressImage` performs, in order: the two derivative
writes (awaited before anything else), the three existence probes, the
guarded unlink of the original, the folder listing, and the guarded folder
removal.  We model it as the list of filesystem events it issues; an
exception in an earlier step aborts the whole method before later events. -/

/-- A filesystem side effect issued by `compressImage` after transcoding. -/
inductive FsEvent
  | writeFile (p : String)
  | accessProbe (p : String)
  | unlink (p : String)
  | readdir (p : String)
  | rmdir (p : String)
  deriving DecidableEq

/-- The ordered filesystem events of `compressImage`'s success path, from
the derivative writes onward.  `originalExists` is the result of the
`fs.access(filePath)` probe; `folderEmptyAfter` is whether `fs.readdir`
returns an empty listing after the conditional unlink. -/
def compressImageCleanupEvents (filePath compressedPngPath webpPath folderPath : String)
    (originalExists folderEmptyAfter : Bool) : List FsEvent :=
  [FsEvent.writeFile compressedPngPath, FsEvent.writeFile webpPath,
   FsEvent.accessProbe compressedPngPath, FsEvent.accessProbe webpPath,
   FsEvent.accessProbe filePath] ++
  (if originalExists && !(filePath == compressedPngPath || filePath == webpPath) then
    [FsEvent.unlink filePath]
  else []) ++
  [FsEvent.readdir folderPath] ++
  (if folderEmptyAfter then [FsEvent.rmdir folderPath] else [])

/-! ### CompressionService: background dispatch and FileService status
bookkeeping (src: compression.service `compressFile` / `compressFileAsync`,
files.service `createFile`). -/

/-- The record-level compression status values written by the service
(`files.model` additionally allows the terminal value `not_needed` to be
written through non-validating updates). -/
inductive CompressionStatus
  | processing
  | completed
  | not_needed
  | failed
  deriving DecidableEq

/-- A terminal compression status. -/
def isTerminal : CompressionStatus → Bool
  | CompressionStatus.completed => true
  | CompressionStatus.not_needed => true
  | CompressionStatus.failed => true
  | CompressionStatus.processing => false

/-- The payload of a successful `CompressionResult` as consumed by
`createFile`'s completion callback. -/
structure CompressionResultData where
  originalSize : Nat
  compressedSize : Nat
  savingsPercentage : ℚ
  compressionType : CompressionType
  folderId : String
  deriving DecidableEq

/-- Resolution value of `CompressionService.compressFile`.  The whole body
sits in one `try { ... } catch { return null }`, so the returned promise
always resolves: globally disabled, ineligible, unsupported types and every
transcode error all resolve `null` (`none`); only a successful transcode
resolves a result.  `transcode` stands for the effectful
`compressImage`/`compressTextFile` call, which either returns a result or
throws. -/
def compressFile (env : Env) (mimetype : String) (size : Nat)
    (options : CompressionOptions)
    (transcode : Except String CompressionResultData) :
    Option CompressionResultData :=
  if !env.ENABLE_FILE_COMPRESSION then none
  else if !shouldCompressFile env mimetype size options then none
  else if isImageType mimetype then
    match transcode with
    | Except.ok r => some r
    | Except.error _ => none
  else if isTextType mimetype then
    match transcode with
    | Except.ok r => some r
    | Except.error _ => none
  else none

/-- The arguments with which `compressFileAsync` invokes its `onComplete`
callback, given the resolution of `compressFile`.  The `.then` handler runs
`if (result) { ... onComplete(result) }`, so a `null` resolution invokes
nothing; the `.catch` handler (which would invoke `onComplete(null)`) is
unreachable because `compressFile` never rejects. -/
def compressFileAsyncCalls (res : Option CompressionResultData) :
    List (Option CompressionResultData) :=
  match res with
  | some r => [some r]
  | none => []

/-- The status written by `createFile`'s completion callback for a given
callback argument: a result writes `completed`, `null` writes `not_needed`. -/
def callbackStatusWrite : Option CompressionResultData → CompressionStatus
  | some _ => CompressionStatus.completed
  | none => CompressionStatus.not_needed

/-- The options `createFile` passes to `shouldCompressFile` and
`compressFileAsync` (quality and bounds only; the type-class switches are
left to their env defaults). -/
def createFileOptions (env : Env) : CompressionOptions :=
  { quality := some env.COMPRESSION_QUALITY
    maxWidth := some 1920
    maxHeight := some 1080 }

/-- The chronological sequence of `compressionStatus` writes issued for one
upload by `createFile` and the background pipeline it dispatches: when
compression is enabled and the file is eligible, `processing` is written at
dispatch time, followed by whatever statuses the completion callback writes;
an ineligible file gets a single `not_needed` write; with compression
disabled no status is written at all. -/
def createFileStatusWrites (env : Env) (enableCompression : Bool)
    (mimetype : String) (size : Nat)
    (transcode : Except String CompressionResultData) : List CompressionStatus :=
  if enableCompression && env.ENABLE_FILE_COMPRESSION then
    if shouldCompressFile env mimetype size (createFileOptions env) then
      CompressionStatus.processing ::
        (compressFileAsyncCalls
            (compressFile env mimetype size (createFileOptions env) transcode)).map
          callbackStatusWrite
    else [CompressionStatus.not_needed]
  else []

/-! ### FileService: record lookup, archive builder and expired-file sweep
(src: files.service `validateFileAccess`, `compressFiles`,
`deleteFile`, `cleanupExpiredFiles`). -/

/-- The error payload thrown as `new APIError({STATUS, TITLE, MESSAGE})`. -/
structure APIErr where
  STATUS : Nat
  TITLE : String
  MESSAGE : String
  deriving DecidableEq

/-- The persistence collaborator, by record contents:
`FileModel.findById` is lookup of the first record with the given id. -/
def findById (db : List FileRec) (fileId : String) : Option FileRec :=
  db.find? (fun f => f.id == fileId)

/-- `FileService.validateFileAccess(fileId, userId, userRole)`: `false`
when the record is missing (or the lookup throws), otherwise the
`canAccessFile` decision. -/
def validateFileAccess (db : List FileRec) (fileId userId : String)
    (userRole : Option String) : Bool :=
  match findById db fileId with
  | none => false
  | some f => canAccessFile f userId userRole

/-- The access-validation loop at the head of `compressFiles`: returns the
first file id that fails `validateFileAccess`, or `none` when every id
passes. -/
def firstDeniedFileId (db : List FileRec) (userId : String)
    (userRole : Option String) : List String → Option String
  | [] => none
  | fid :: rest =>
    if validateFileAccess db fid userId userRole then
      firstDeniedFileId db userId userRole rest
    else some fid

/-- Success payload of `compressFiles`. -/
structure ArchiveInfo where
  archivePath : String
  fileCount : Nat
  deriving DecidableEq

/-- Observable outcome of one `compressFiles` call: the value it returns or
the error it throws, plus whether an archive file was created on disk
(`createWriteStream(archivePath)` is only reached on the success path). -/
structure ArchiveOutcome where
  result : Except APIErr ArchiveInfo
  archiveCreatedOnDisk : Bool

/-- `FileService.compressFiles(fileIds, userId, userRole, archiveName)`:
validates access to every id first, throwing
`401 Access Denied / No access to file {fileId}` at the first failure,
before any file record is fetched and before the output stream is opened;
only then is the archive streamed to
`uploads/{archiveName || archive_{timestamp}.zip}`.  `timestamp` stands for
the formatted wall clock read on the success path. -/
def compressFiles (db : List FileRec) (fileIds : List String) (userId : String)
    (userRole : Option String) (archiveName : Option String)
    (timestamp : String) : ArchiveOutcome :=
  match firstDeniedFileId db userId userRole fileIds with
  | some fid =>
    { result := Except.error
        { STATUS := 401, TITLE := "Access Denied"
          MESSAGE := "No access to file " ++ fid }
      archiveCreatedOnDisk := false }
  | none =>
    let archiveFilename := archiveName.getD ("archive_" ++ timestamp ++ ".zip")
    { result := Except.ok
        { archivePath := "uploads/" ++ archiveFilename
          fileCount := fileIds.length }
      archiveCreatedOnDisk := true }

/-- The mongoose query `{ expiresAt: { $lt: now } }`: matches records whose
`expiresAt` is set and strictly before `now`. -/
def isExpired (now : Int) (f : FileRec) : Bool :=
  match f.expiresAt with
  | some t => t < now
  | none => false

/-- `FileModel.findByIdAndDelete(fileId)`: remove every record with that id. -/
def findByIdAndDelete (db : List FileRec) (fileId : String) : List FileRec :=
  db.filter (fun f => !(f.id == fileId))

/-- The deletion loop of `cleanupExpiredFiles`: attempt
`deleteFile(file._id, 'system', 'admin')` for every expired record in order;
a successful deletion removes the record and increments the count, a throw
(`deleteFails`) is logged and the loop continues.  Returns the success count
and the resulting record store. -/
def deleteExpiredLoop (deleteFails : FileRec → Bool) :
    List FileRec → List FileRec → Nat × List FileRec
  | [], db => (0, db)
  | f :: rest, db =>
    if deleteFails f then deleteExpiredLoop deleteFails rest db
    else
      let out := deleteExpiredLoop deleteFails rest (findByIdAndDelete db f.id)
      (out.1 + 1, out.2)

/-- `FileService.cleanupExpiredFiles(userRole)`: non-admins are rejected
with a 401 before the expired-record query runs; for an admin, every record
with `expiresAt < now` is deleted in turn, individual failures are swallowed,
and the number of successful deletions is returned.  The second component is
the record store after the call (unchanged when the call throws). -/
def cleanupExpiredFiles (userRole : Option String) (db : List FileRec)
    (now : Int) (deleteFails : FileRec → Bool) :
    Except APIErr Nat × List FileRec :=
  if userRole ≠ some "admin" then
    (Except.error
      { STATUS := 401, TITLE := "Access Denied"
        MESSAGE := "Only administrators can cleanup expired files" }, db)
  else
    let expiredFiles := db.filter (isExpired now)
    let out := deleteExpiredLoop deleteFails expiredFiles db
    (Except.ok out.1, out.2)

/-! ## Claims -/

/-- C1: for every file record and requester, `canAccessFile` is true iff the
file is public, or the requester uploaded it, or the requester role is
`admin`; and `canDownloadFile` coincides with `canAccessFile` on every
input. -/
theorem canAccessFile_spec (f : FileRec) (userId : String) (userRole : Option String) :
    canAccessFile f userId userRole =
      (f.isPublic || f.uploadedBy == userId || userRole == some "admin") ∧
    canDownloadFile f userId userRole = canAccessFile f userId userRole := by
  unfold canAccessFile canDownloadFile
  cases f.isPublic <;> simp

/-- C2: for every size (however small) and every mimetype starting with
`image/`, `shouldCompressFile` returns true whenever the options enable
image compression. -/
theorem shouldCompressFile_image_always (env : Env) (mimetype : String)
    (size : Nat) (options : CompressionOptions)
    (himg : isImageType mimetype = true)
    (hopt : options.compressImages = some true) :
    shouldCompressFile env mimetype size options = true := by
  unfold shouldCompressFile
  simp [hopt, himg]

/-- C2 witness: `shouldCompressFile("image/png", 1, {compressImages: true})`
is true despite the size 1 being far below the 300000-byte threshold. -/
theorem shouldCompressFile_image_always_witness :
    isImageType "image/png" = true ∧
    (({ compressImages := some true } : CompressionOptions)).compressImages = some true ∧
    shouldCompressFile envDefault "image/png" 1 { compressImages := some true } = true :=
  ⟨by decide, rfl,
    shouldCompressFile_image_always envDefault "image/png" 1
      { compressImages := some true } (by decide) rfl⟩

/-- C3: `shouldCompressFile("application/pdf", size, options)` is false for
every size and every options value, even with `compressPdfs` enabled and
size at or above the threshold. -/
theorem shouldCompressFile_pdf_false (env : Env) (size : Nat)
    (options : CompressionOptions) :
    shouldCompressFile env "application/pdf" size options = false := by
  have h1 : isImageType "application/pdf" = false := by decide
  have h2 : isPdfType "application/pdf" = true := by decide
  have h3 : isTextType "application/pdf" = false := by decide
  unfold shouldCompressFile
  simp [h1, h2, h3]

/-- C4: result selection for a successful image transcode with PNG size `p`,
WebP size `w` and original size `o`: WebP wins when its ratio is below both
PNG's ratio and 0.95 (over `ℚ`, `w/o < 0.95 ↔ 20w < 19o` for `o > 0`);
otherwise PNG when its ratio is below 0.95; otherwise the numerically
smaller derivative; and the reported `compressedSize` is the chosen
derivative's size (`min p w` in the last case), with
`savingsPercentage = (o − compressedSize) / o × 100` in every case. -/
theorem selectCompressionResult_spec (p w o : Nat) (ho : 0 < o) :
    ((selectCompressionResult p w o).savingsPercentage =
        ((o : ℚ) - ((selectCompressionResult p w o).compressedSize : ℚ)) / (o : ℚ) * 100) ∧
    (if w < p ∧ 20 * w < 19 * o then
        (selectCompressionResult p w o).compressionType = CompressionType.webp ∧
        (selectCompressionResult p w o).compressedSize = w
      else if 20 * p < 19 * o then
        (selectCompressionResult p w o).compressionType = CompressionType.png ∧
        (selectCompressionResult p w o).compressedSize = p
      else
        (selectCompressionResult p w o).compressedSize = min p w ∧
        (w < p → (selectCompressionResult p w o).compressionType = CompressionType.webp) ∧
        (¬ w < p → (selectCompressionResult p w o).compressionType = CompressionType.png)) := by
  have ho' : (0 : ℚ) < (o : ℚ) := by exact_mod_cast ho
  have hwp : ((w : ℚ) / (o : ℚ) < (p : ℚ) / (o : ℚ)) ↔ w < p := by
    rw [div_lt_div_iff_of_pos_right ho']
    exact_mod_cast Iff.rfl
  have hw95 : ((w : ℚ) / (o : ℚ) < 95 / 100) ↔ 20 * w < 19 * o := by
    rw [div_lt_iff₀ ho']
    constructor
    · intro h
      have hq : (20 * w : ℚ) < (19 * o : ℚ) := by linarith
      exact_mod_cast hq
    · intro h
      have hq : (20 * w : ℚ) < (19 * o : ℚ) := by exact_mod_cast h
      linarith
  have hp95 : ((p : ℚ) / (o : ℚ) < 95 / 100) ↔ 20 * p < 19 * o := by
    rw [div_lt_iff₀ ho']
    constructor
    · intro h
      have hq : (20 * p : ℚ) < (19 * o : ℚ) := by linarith
      exact_mod_cast hq
    · intro h
      have hq : (20 * p : ℚ) < (19 * o : ℚ) := by exact_mod_cast h
      linarith
  unfold selectCompressionResult
  simp only []
  split_ifs with h1 h2 h3 h4 h5 h6 h7 <;> simp_all

/-- C4 witness: for a 100-byte original with a 90-byte PNG and an 80-byte
WebP, the theorem applies and yields primary type WebP with compressed size
80 and a 20% savings. -/
theorem selectCompressionResult_spec_witness :
    0 < 100 ∧
    (((selectCompressionResult 90 80 100).savingsPercentage =
        ((100 : ℚ) - ((selectCompressionResult 90 80 100).compressedSize : ℚ)) / (100 : ℚ) * 100) ∧
      (if 80 < 90 ∧ 20 * 80 < 19 * 100 then
          (selectCompressionResult 90 80 100).compressionType = CompressionType.webp ∧
          (selectCompressionResult 90 80 100).compressedSize = 80
        else if 20 * 90 < 19 * 100 then
          (selectCompressionResult 90 80 100).compressionType = CompressionType.png ∧
          (selectCompressionResult 90 80 100).compressedSize = 90
        else
          (selectCompressionResult 90 80 100).compressedSize = min 90 80 ∧
          (80 < 90 → (selectCompressionResult 90 80 100).compressionType = CompressionType.webp) ∧
          (¬ 80 < 90 → (selectCompressionResult 90 80 100).compressionType = CompressionType.png))) :=
  ⟨by norm_num, selectCompressionResult_spec 90 80 100 (by norm_num)⟩

/-- C5 (amended): the status writes for one upload are always one of: no
write (compression disabled), a single `not_needed` (ineligible file),
`processing` alone (dispatched, background work resolved null and the
callback never ran), or `processing` followed by exactly one terminal
value.  In particular no write ever follows a terminal value and the status
never returns from a terminal value to `processing`; but the terminal write
is at most once, not exactly once. -/
theorem createFileStatusWrites_transitions (env : Env) (enableCompression : Bool)
    (mimetype : String) (size : Nat)
    (transcode : Except String CompressionResultData) :
    createFileStatusWrites env enableCompression mimetype size transcode = [] ∨
    createFileStatusWrites env enableCompression mimetype size transcode =
      [CompressionStatus.not_needed] ∨
    createFileStatusWrites env enableCompression mimetype size transcode =
      [CompressionStatus.processing] ∨
    ∃ t, isTerminal t = true ∧
      createFileStatusWrites env enableCompression mimetype size transcode =
        [CompressionStatus.processing, t] := by
  unfold createFileStatusWrites
  split_ifs with h1 h2
  · cases hc : compressFile env mimetype size (createFileOptions env) transcode with
    | none =>
      right; right; left
      simp [hc, compressFileAsyncCalls]
    | some r =>
      right; right; right
      exact ⟨CompressionStatus.completed, rfl,
        by simp [hc, compressFileAsyncCalls, callbackStatusWrite]⟩
  · right; left; rfl
  · left; rfl

/-- C5 counterexample: for an eligible image upload whose transcode throws
(the default env, mimetype `image/png`, size 1), `processing` is written at
dispatch but no terminal value is ever written afterwards — the claimed
"set exactly once to a terminal value" fails. -/
theorem createFileStatusWrites_stuck_counterexample :
    createFileStatusWrites envDefault true "image/png" 1
      (Except.error "decode failure") = [CompressionStatus.processing] ∧
    ¬ ∃ t, isTerminal t = true ∧
        createFileStatusWrites envDefault true "image/png" 1
          (Except.error "decode failure") = [CompressionStatus.processing, t] := by
  have h : createFileStatusWrites envDefault true "image/png" 1
      (Except.error "decode failure") = [CompressionStatus.processing] := by decide
  refine ⟨h, ?_⟩
  rintro ⟨t, -, hcontra⟩
  rw [h] at hcontra
  simp at hcontra

/-- C6 (bug evaluation): when the background transcode of an eligible image
fails, `compressFile` resolves `null`, `compressFileAsync` therefore never
invokes the `onComplete` callback, and the only status write for the upload
is the initial `processing` — no terminal value is ever recorded, although
the failure is indeed not propagated to the caller. -/
theorem compressionFailure_leaves_processing :
    compressFile envDefault "image/jpeg" 2097152 (createFileOptions envDefault)
        (Except.error "sharp transcode error") = Option.none ∧
    compressFileAsyncCalls (compressFile envDefault "image/jpeg" 2097152
        (createFileOptions envDefault) (Except.error "sharp transcode error")) = [] ∧
    createFileStatusWrites envDefault true "image/jpeg" 2097152
        (Except.error "sharp transcode error") = [CompressionStatus.processing] :=
  ⟨by decide, by decide, by decide⟩

/-- Helper: if some id in the list fails the access check, the validation
loop stops at a failing id. -/
theorem firstDeniedFileId_of_exists (db : List FileRec) (userId : String)
    (userRole : Option String) :
    ∀ ids : List String,
      (∃ fid ∈ ids, validateFileAccess db fid userId userRole = false) →
      ∃ fid, fid ∈ ids ∧ validateFileAccess db fid userId userRole = false ∧
        firstDeniedFileId db userId userRole ids = some fid
  | [], h => by simp at h
  | fid :: rest, h => by
    by_cases hacc : validateFileAccess db fid userId userRole = true
    · obtain ⟨x, hx, hxf⟩ := h
      rcases List.mem_cons.mp hx with hhead | htail
      · rw [hhead] at hxf
        rw [hacc] at hxf
        cases hxf
      · obtain ⟨y, hy, hyf, hloop⟩ :=
          firstDeniedFileId_of_exists db userId userRole rest ⟨x, htail, hxf⟩
        exact ⟨y, List.mem_cons_of_mem _ hy, hyf, by
          unfold firstDeniedFileId
          rw [if_pos hacc]
          exact hloop⟩
    · refine ⟨fid, List.mem_cons_self _ _, by simpa using hacc, ?_⟩
      unfold firstDeniedFileId
      rw [if_neg hacc]

/-- C7: if any requested id fails the access check, `compressFiles` throws
`401 Access Denied` naming a failing file id, and no archive file is
created on disk — the whole id list is validated before the output stream
is opened. -/
theorem compressFiles_denied (db : List FileRec) (fileIds : List String)
    (userId : String) (userRole : Option String) (archiveName : Option String)
    (timestamp : String)
    (h : ∃ fid ∈ fileIds, validateFileAccess db fid userId userRole = false) :
    (compressFiles db fileIds userId userRole archiveName timestamp).archiveCreatedOnDisk
      = false ∧
    ∃ fid, fid ∈ fileIds ∧ validateFileAccess db fid userId userRole = false ∧
      (compressFiles db fileIds userId userRole archiveName timestamp).result =
        Except.error
          { STATUS := 401, TITLE := "Access Denied"
            MESSAGE := "No access to file " ++ fid } := by
  obtain ⟨fid, hmem, hfail, hloop⟩ :=
    firstDeniedFileId_of_exists db userId userRole fileIds h
  unfold compressFiles
  rw [hloop]
  exact ⟨rfl, fid, hmem, hfail, rfl⟩

/-- Concrete two-record store for the C7 witness: `A` is public, `B` is a
private file owned by `u2`. -/
def dbTwoFiles : List FileRec :=
  [{ id := "A", originalName := "a.png", filename := "u2_A.png"
     mimetype := "image/png", size := 10, uploadedBy := "u2", isPublic := true },
   { id := "B", originalName := "b.pdf", filename := "u2_B.pdf"
     mimetype := "application/pdf", size := 20, uploadedBy := "u2", isPublic := false }]

/-- C7 witness: requester `u1` (no role) may read public `A` but not
private `B`; `compressFiles(["A","B"])` creates no archive and throws the
401 error naming a failing id. -/
theorem compressFiles_denied_witness :
    (∃ fid ∈ ["A", "B"], validateFileAccess dbTwoFiles fid "u1" Option.none = false) ∧
    ((compressFiles dbTwoFiles ["A", "B"] "u1" Option.none Option.none
        "2026-01-01T00-00-00-000Z").archiveCreatedOnDisk = false ∧
      ∃ fid, fid ∈ ["A", "B"] ∧
        validateFileAccess dbTwoFiles fid "u1" Option.none = false ∧
        (compressFiles dbTwoFiles ["A", "B"] "u1" Option.none Option.none
            "2026-01-01T00-00-00-000Z").result =
          Except.error
            { STATUS := 401, TITLE := "Access Denied"
              MESSAGE := "No access to file " ++ fid }) :=
  ⟨⟨"B", by decide⟩,
    compressFiles_denied dbTwoFiles ["A", "B"] "u1" Option.none Option.none
      "2026-01-01T00-00-00-000Z" ⟨"B", by decide⟩⟩

/-- Helper: the deletion loop attempts every expired record, and its
success count plus the number of failing records equals the number of
expired records (failures never abort the remaining attempts). -/
theorem deleteExpiredLoop_count (deleteFails : FileRec → Bool) :
    ∀ expired db : List FileRec,
      (deleteExpiredLoop deleteFails expired db).1 +
        (expired.filter deleteFails).length = expired.length
  | [], _ => by simp [deleteExpiredLoop]
  | f :: rest, db => by
    unfold deleteExpiredLoop
    by_cases hf : deleteFails f = true
    · rw [if_pos hf]
      have ih := deleteExpiredLoop_count deleteFails rest db
      simp only [List.filter_cons, hf, if_pos, List.length_cons]
      omega
    · rw [if_neg hf]
      have ih := deleteExpiredLoop_count deleteFails rest (findByIdAndDelete db f.id)
      have hf2 : deleteFails f = false := by simpa using hf
      simp [List.filter_cons, hf2]
      omega

/-- C8: `cleanupExpiredFiles` run as admin counts exactly the deletions that
succeed over all records with `expiresAt < now`: the count is the number of
expired records minus the number of failing deletions, so it is `N − 1`
when exactly one deletion among `N` expired records throws. -/
theorem cleanupExpiredFiles_count (db : List FileRec) (now : Int)
    (deleteFails : FileRec → Bool) (userRole : Option String)
    (hrole : userRole = some "admin") :
    (cleanupExpiredFiles userRole db now deleteFails).1 =
      Except.ok ((db.filter (isExpired now)).length -
        ((db.filter (isExpired now)).filter deleteFails).length) ∧
    (((db.filter (isExpired now)).filter deleteFails).length = 1 →
      (cleanupExpiredFiles userRole db now deleteFails).1 =
        Except.ok ((db.filter (isExpired now)).length - 1)) := by
  subst hrole
  unfold cleanupExpiredFiles
  rw [if_neg (by simp)]
  have hc := deleteExpiredLoop_count deleteFails (db.filter (isExpired now)) db
  constructor
  · simp only []
    congr 1
    omega
  · intro h1
    simp only []
    congr 1
    omega

/-- Concrete three-record store for the C8 witness: all three records are
expired at `now = 100`; deleting `Y` throws. -/
def dbThreeExpired : List FileRec :=
  [{ id := "X", originalName := "x.txt", filename := "u1_X.txt"
     mimetype := "text/plain", size := 1, uploadedBy := "u1", isPublic := false
     expiresAt := some 10 },
   { id := "Y", originalName := "y.txt", filename := "u1_Y.txt"
     mimetype := "text/plain", size := 2, uploadedBy := "u1", isPublic := false
     expiresAt := some 20 },
   { id := "Z", originalName := "z.txt", filename := "u1_Z.txt"
     mimetype := "text/plain", size := 3, uploadedBy := "u1", isPublic := false
     expiresAt := some 30 }]

/-- C8 witness: with three expired records of which exactly the deletion of
`Y` throws, the admin sweep still reports 2 = 3 − 1 successful deletions. -/
theorem cleanupExpiredFiles_count_witness :
    (some "admin" = some "admin") ∧
    ((cleanupExpiredFiles (some "admin") dbThreeExpired 100
        (fun f => f.id == "Y")).1 =
      Except.ok ((dbThreeExpired.filter (isExpired 100)).length -
        ((dbThreeExpired.filter (isExpired 100)).filter
          (fun f => f.id == "Y")).length) ∧
      (((dbThreeExpired.filter (isExpired 100)).filter
          (fun f => f.id == "Y")).length = 1 →
        (cleanupExpiredFiles (some "admin") dbThreeExpired 100
            (fun f => f.id == "Y")).1 =
          Except.ok ((dbThreeExpired.filter (isExpired 100)).length - 1))) :=
  ⟨rfl, cleanupExpiredFiles_count dbThreeExpired 100 (fun f => f.id == "Y")
    (some "admin") rfl⟩

/-- C10: calling `cleanupExpiredFiles` with any role other than `admin`
throws the 401 error before the expired-record query runs, and the record
store is unchanged. -/
theorem cleanupExpiredFiles_nonadmin (userRole : Option String)
    (db : List FileRec) (now : Int) (deleteFails : FileRec → Bool)
    (h : userRole ≠ some "admin") :
    cleanupExpiredFiles userRole db now deleteFails =
      (Except.error
        { STATUS := 401, TITLE := "Access Denied"
          MESSAGE := "Only administrators can cleanup expired files" }, db) := by
  unfold cleanupExpiredFiles
  rw [if_pos h]

/-- C10 witness: a plain `user` role is rejected with the 401 error and the
(expired) record store is left untouched. -/
theorem cleanupExpiredFiles_nonadmin_witness :
    (some "user" ≠ some "admin") ∧
    cleanupExpiredFiles (some "user") dbThreeExpired 100 (fun _ => false) =
      (Except.error
        { STATUS := 401, TITLE := "Access Denied"
          MESSAGE := "Only administrators can cleanup expired files" },
        dbThreeExpired) :=
  ⟨by decide,
    cleanupExpiredFiles_nonadmin (some "user") dbThreeExpired 100 (fun _ => false)
      (by decide)⟩

/-- C9: on the success path of `compressImage`, the two derivative writes
are the first events — every later event, in particular any unlink of the
original, comes only after both derivatives are written; the original is
unlinked iff it still exists and its path differs from both derivative
paths; and the folder is removed iff it is empty after the cleanup. -/
theorem compressImageCleanup_spec (filePath compressedPngPath webpPath folderPath : String)
    (originalExists folderEmptyAfter : Bool) :
    ∃ rest,
      compressImageCleanupEvents filePath compressedPngPath webpPath folderPath
          originalExists folderEmptyAfter =
        FsEvent.writeFile compressedPngPath :: FsEvent.writeFile webpPath :: rest ∧
      (FsEvent.unlink filePath ∈ rest ↔
        originalExists = true ∧ filePath ≠ compressedPngPath ∧ filePath ≠ webpPath) ∧
      (FsEvent.rmdir folderPath ∈ rest ↔ folderEmptyAfter = true) := by
  refine ⟨[FsEvent.accessProbe compressedPngPath, FsEvent.accessProbe webpPath,
      FsEvent.accessProbe filePath] ++
    (if originalExists && !(filePath == compressedPngPath || filePath == webpPath) then
      [FsEvent.unlink filePath]
    else []) ++
    [FsEvent.readdir folderPath] ++
    (if folderEmptyAfter then [FsEvent.rmdir folderPath] else []), rfl, ?_, ?_⟩
  · by_cases h1 : originalExists && !(filePath == compressedPngPath || filePath == webpPath)
    · rw [if_pos h1]
      simp only [Bool.and_eq_true, Bool.not_eq_true', Bool.or_eq_false_iff,
        beq_eq_false_iff_ne] at h1
      simp [h1]
    · rw [if_neg h1]
      simp only [Bool.and_eq_true, Bool.not_eq_true', Bool.or_eq_false_iff,
        beq_eq_false_iff_ne] at h1
      constructor
      · intro hmem
        exfalso
        split at hmem <;> simp_all
      · intro hmem
        exact absurd hmem h1
  · by_cases h2 : folderEmptyAfter
    · subst h2
      simp
    · have h2f : folderEmptyAfter = false := by simpa using h2
      subst h2f
      simp

end FileServiceRepo
